import Mathlib

/-!
Verification of the token-authentication core of the tool-registry service
(`src/tool_registry/security.py`).  The Python functions are shallowly
embedded as executable Lean definitions: bytes are `Nat`s below 256, byte
strings are `List Nat`, the sqlite nonce table is an explicit association
list threaded through the functions, and the wall clock is an explicit
`Int` parameter.  Exceptions raised by the Python code are made explicit
with `Except`.
-/

namespace ToolRegistry

/-- Reduction of a natural number to a 32-bit word. -/
def w32 (x : Nat) : Nat := x % 4294967296

/-- 32-bit modular addition. -/
def add32 (a b : Nat) : Nat := (a + b) % 4294967296

/-- 32-bit right rotation (argument assumed `< 2^32`). -/
def rotr (n x : Nat) : Nat := w32 ((x >>> n) ||| (x <<< (32 - n)))

/-- SHA-256 message-schedule function sigma0. -/
def sigmaS0 (x : Nat) : Nat := (rotr 7 x) ^^^ (rotr 18 x) ^^^ (x >>> 3)

/-- SHA-256 message-schedule function sigma1. -/
def sigmaS1 (x : Nat) : Nat := (rotr 17 x) ^^^ (rotr 19 x) ^^^ (x >>> 10)

/-- SHA-256 compression function Sigma0. -/
def sigmaB0 (x : Nat) : Nat := (rotr 2 x) ^^^ (rotr 13 x) ^^^ (rotr 22 x)

/-- SHA-256 compression function Sigma1. -/
def sigmaB1 (x : Nat) : Nat := (rotr 6 x) ^^^ (rotr 11 x) ^^^ (rotr 25 x)

/-- SHA-256 choice function. -/
def chFn (x y z : Nat) : Nat := (x &&& y) ^^^ ((x ^^^ 4294967295) &&& z)

/-- SHA-256 majority function. -/
def majFn (x y z : Nat) : Nat := (x &&& y) ^^^ (x &&& z) ^^^ (y &&& z)

/-- SHA-256 round constants. -/
def K256 : List Nat :=
  [1116352408, 1899447441, 3049323471, 3921009573, 961987163,
   1508970993, 2453635748, 2870763221, 3624381080, 310598401,
   607225278, 1426881987, 1925078388, 2162078206, 2614888103,
   3248222580, 3835390401, 4022224774, 264347078, 604807628,
   770255983, 1249150122, 1555081692, 1996064986, 2554220882,
   2821834349, 2952996808, 3210313671, 3336571891, 3584528711,
   113926993, 338241895, 666307205, 773529912, 1294757372,
   1396182291, 1695183700, 1986661051, 2177026350, 2456956037,
   2730485921, 2820302411, 3259730800, 3345764771, 3516065817,
   3600352804, 4094571909, 275423344, 430227734, 506948616,
   659060556, 883997877, 958139571, 1322822218, 1537002063,
   1747873779, 1955562222, 2024104815, 2227730452, 2361852424,
   2428436474, 2756734187, 3204031479, 3329325298]

/-- Working state of the SHA-256 compression loop (eight 32-bit words). -/
structure Hash8 where
  a : Nat
  b : Nat
  c : Nat
  d : Nat
  e : Nat
  f : Nat
  g : Nat
  h : Nat
deriving DecidableEq, Repr

/-- Initial SHA-256 hash value. -/
def initHash : Hash8 :=
  ⟨1779033703,
   3144134277,
   1013904242,
   2773480762,
   1359893119,
   2600822924,
   528734635,
   1541459225⟩

/-- Big-endian packing of bytes into 32-bit words. -/
def wordsOfBytes : List Nat → List Nat
  | b0 :: b1 :: b2 :: b3 :: rest =>
      ((((b0 <<< 8) ||| b1) <<< 8 ||| b2) <<< 8 ||| b3) :: wordsOfBytes rest
  | _ => []

/-- Extension of the 16-word message schedule, one word per unit of fuel. -/
def extendSchedule : Nat → List Nat → List Nat
  | 0, w => w
  | fuel + 1, w =>
      let i := w.length
      let x := add32 (add32 (w.getD (i - 16) 0) (sigmaS0 (w.getD (i - 15) 0)))
                     (add32 (w.getD (i - 7) 0) (sigmaS1 (w.getD (i - 2) 0)))
      extendSchedule fuel (w ++ [x])

/-- One SHA-256 round for a given constant/schedule-word pair. -/
def roundFn (st : Hash8) (kw : Nat × Nat) : Hash8 :=
  let t1 := add32 st.h (add32 (sigmaB1 st.e) (add32 (chFn st.e st.f st.g) (add32 kw.1 kw.2)))
  let t2 := add32 (sigmaB0 st.a) (majFn st.a st.b st.c)
  ⟨add32 t1 t2, st.a, st.b, st.c, add32 st.d t1, st.e, st.f, st.g⟩

/-- SHA-256 compression of one 64-byte block into the running hash. -/
def compressBlock (st : Hash8) (block : List Nat) : Hash8 :=
  let w := extendSchedule 48 (wordsOfBytes block)
  let fin := (K256.zip w).foldl roundFn st
  ⟨add32 st.a fin.a, add32 st.b fin.b, add32 st.c fin.c, add32 st.d fin.d,
   add32 st.e fin.e, add32 st.f fin.f, add32 st.g fin.g, add32 st.h fin.h⟩

/-- Big-endian 8-byte encoding of a length in bits. -/
def lenBytes8 (n : Nat) : List Nat :=
  [(n >>> 56) % 256, (n >>> 48) % 256, (n >>> 40) % 256, (n >>> 32) % 256,
   (n >>> 24) % 256, (n >>> 16) % 256, (n >>> 8) % 256, n % 256]

/-- SHA-256 padding: append `0x80`, zeros, and the 64-bit bit length. -/
def padMessage (msg : List Nat) : List Nat :=
  let l := msg.length
  msg ++ 128 :: List.replicate ((119 - l % 64) % 64) 0 ++ lenBytes8 (8 * l)

/-- Partition into 64-byte blocks, fuelled to keep the recursion structural. -/
def toBlocksF : Nat → List Nat → List (List Nat)
  | _, [] => []
  | 0, _ :: _ => []
  | fuel + 1, a :: t => (a :: t.take 63) :: toBlocksF fuel (t.drop 63)

/-- Partition of a byte string into 64-byte blocks. -/
def toBlocks (l : List Nat) : List (List Nat) := toBlocksF l.length l

/-- Big-endian byte decomposition of a 32-bit word. -/
def bytesOfWord (x : Nat) : List Nat :=
  [(x >>> 24) % 256, (x >>> 16) % 256, (x >>> 8) % 256, x % 256]

/-- The SHA-256 digest (32 bytes) of a byte string. -/
def sha256 (msg : List Nat) : List Nat :=
  let st := (toBlocks (padMessage msg)).foldl compressBlock initHash
  ([st.a, st.b, st.c, st.d, st.e, st.f, st.g, st.h].map bytesOfWord).flatten

/-- HMAC-SHA256 as used by `hmac.new(secret, payload, hashlib.sha256)`. -/
def hmacSha256 (key msg : List Nat) : List Nat :=
  let k0 := if 64 < key.length then sha256 key else key
  let kp := k0 ++ List.replicate (64 - k0.length) 0
  sha256 ((kp.map (fun b => b ^^^ 0x5c)) ++ sha256 ((kp.map (fun b => b ^^^ 0x36)) ++ msg))

/-- Character of the urlsafe base64 alphabet for a 6-bit value
(`base64.urlsafe_b64encode` alphabet: A-Z, a-z, 0-9, `-`, `_`). -/
def b64Char (k : Nat) : Nat :=
  if k < 26 then 65 + k
  else if k < 52 then 97 + (k - 26)
  else if k < 62 then 48 + (k - 52)
  else if k = 62 then 45
  else 95

/-- Embedding of `base64.urlsafe_b64encode`: three input bytes become four
alphabet characters, a short final group is completed with `=` padding
(byte 61). -/
def b64encode : List Nat → List Nat
  | [] => []
  | [b0] => [b64Char (b0 / 4), b64Char (b0 % 4 * 16), 61, 61]
  | [b0, b1] => [b64Char (b0 / 4), b64Char (b0 % 4 * 16 + b1 / 16), b64Char (b1 % 16 * 4), 61]
  | b0 :: b1 :: b2 :: rest =>
      b64Char (b0 / 4) :: b64Char (b0 % 4 * 16 + b1 / 16) ::
      b64Char (b1 % 16 * 4 + b2 / 64) :: b64Char (b2 % 64) :: b64encode rest

/-- Value of one base64 character.  `urlsafe_b64decode` first translates
`-_` to `+/` and then decodes with the standard alphabet, so both pairs are
accepted. -/
def b64Val (c : Nat) : Option Nat :=
  if 65 ≤ c ∧ c ≤ 90 then some (c - 65)
  else if 97 ≤ c ∧ c ≤ 122 then some (c - 97 + 26)
  else if 48 ≤ c ∧ c ≤ 57 then some (c - 48 + 52)
  else if c = 43 ∨ c = 45 then some 62
  else if c = 47 ∨ c = 95 then some 63
  else none

/-- Bytes kept by `binascii.a2b_base64` in non-strict mode: characters
outside the alphabet are discarded before the padding check. -/
def b64Keep (l : List Nat) : List Nat :=
  l.filter (fun c => (b64Val c).isSome || c = 61)

/-- Decoding of the retained characters in groups of four; a group count
that is not a multiple of four is the `binascii.Error: Incorrect padding`
case, and `=` is accepted only as trailing padding of the last group. -/
def b64DecodeGroups : List Nat → Option (List Nat)
  | [] => some []
  | c0 :: c1 :: c2 :: c3 :: rest => do
      let v0 ← b64Val c0
      let v1 ← b64Val c1
      if c2 = 61 then
        if c3 = 61 ∧ rest = [] then some [v0 * 4 + v1 / 16] else none
      else do
        let v2 ← b64Val c2
        if c3 = 61 then
          if rest = [] then some [v0 * 4 + v1 / 16, v1 % 16 * 16 + v2 / 4] else none
        else do
          let v3 ← b64Val c3
          let tl ← b64DecodeGroups rest
          some ((v0 * 4 + v1 / 16) :: (v1 % 16 * 16 + v2 / 4) :: (v2 % 4 * 64 + v3) :: tl)
  | _ => none

/-- Embedding of `base64.urlsafe_b64decode`; `none` is the raised
`binascii.Error` that `validate_admin_token` catches. -/
def b64decode (l : List Nat) : Option (List Nat) :=
  b64DecodeGroups (b64Keep l)

/-- Embedding of `decoded.rsplit(b".", 1)` followed by the two-element
unpacking: splits at the last `.` (byte 46); `none` is the `ValueError`
raised when no separator is present (one-element unpacking result). -/
def rsplitDot : List Nat → Option (List Nat × List Nat)
  | [] => none
  | c :: rest =>
      match rsplitDot rest with
      | some (pre, post) => some (c :: pre, post)
      | none => if c = 46 then some ([], rest) else none

/-- Lowercase hexadecimal digit, as emitted by `json.dumps` escapes. -/
def hexDigit (n : Nat) : Nat := if n < 10 then 48 + n else 87 + n

/-- Escape sequence `\uXXXX` for one code unit. -/
def uEscape (c : Nat) : List Nat :=
  [92, 117, hexDigit (c / 4096 % 16), hexDigit (c / 256 % 16), hexDigit (c / 16 % 16), hexDigit (c % 16)]

/-- Escaping of one character by `json.dumps` with the default
`ensure_ascii=True`: quote and backslash get a two-character escape, the
five short control escapes are used, other characters below 0x20 and all
characters from 0x7f up are `\u`-escaped (astral characters as a surrogate
pair), the rest is emitted literally. -/
def jsonEscapeChar (c : Nat) : List Nat :=
  if c = 34 then [92, 34]
  else if c = 92 then [92, 92]
  else if c = 8 then [92, 98]
  else if c = 9 then [92, 116]
  else if c = 10 then [92, 110]
  else if c = 12 then [92, 102]
  else if c = 13 then [92, 114]
  else if c < 32 then uEscape c
  else if c < 127 then [c]
  else if c < 65536 then uEscape c
  else uEscape (55296 + (c - 65536) / 1024) ++ uEscape (56320 + (c - 65536) % 1024)

/-- JSON string literal (quoted, escaped) for a list of code points. -/
def jsonString (s : List Nat) : List Nat :=
  34 :: (s.map jsonEscapeChar).flatten ++ [34]

/-- Decimal digits of a natural number as byte values. -/
def decDigits (n : Nat) : List Nat := (Nat.toDigits 10 n).map Char.toNat

/-- JSON rendering of a Python `int`. -/
def jsonInt (i : Int) : List Nat :=
  if i < 0 then 45 :: decDigits i.natAbs else decDigits i.natAbs

/-- Admin token payload: the dict built by `generate_admin_token`.  Strings
are lists of Unicode code points, the timestamp is an unbounded integer. -/
structure Payload where
  user : List Nat
  ts : Int
  nonce : List Nat
deriving DecidableEq, Repr

/-- Embedding of `json.dumps(payload, separators=(",", ":")).encode()` for
the three-field payload dict, in insertion order `user`, `ts`, `nonce`. -/
def serializePayload (p : Payload) : List Nat :=
  [123, 34, 117, 115, 101, 114, 34, 58] ++ jsonString p.user ++
  [44, 34, 116, 115, 34, 58] ++ jsonInt p.ts ++
  [44, 34, 110, 111, 110, 99, 101, 34, 58] ++ jsonString p.nonce ++ [125]

/-- Value of one hexadecimal digit character. -/
def parseHex (c : Nat) : Option Nat :=
  if 48 ≤ c ∧ c ≤ 57 then some (c - 48)
  else if 97 ≤ c ∧ c ≤ 102 then some (c - 87)
  else if 65 ≤ c ∧ c ≤ 70 then some (c - 55)
  else none

/-- Four hexadecimal digits of a `\uXXXX` escape. -/
def parseU4 : List Nat → Option (Nat × List Nat)
  | h1 :: h2 :: h3 :: h4 :: rest => do
      let d1 ← parseHex h1
      let d2 ← parseHex h2
      let d3 ← parseHex h3
      let d4 ← parseHex h4
      some (((d1 * 16 + d2) * 16 + d3) * 16 + d4, rest)
  | _ => none

/-- Value of a single-character JSON escape. -/
def escCode (e : Nat) : Option Nat :=
  if e = 34 then some 34
  else if e = 92 then some 92
  else if e = 47 then some 47
  else if e = 98 then some 8
  else if e = 102 then some 12
  else if e = 110 then some 10
  else if e = 114 then some 13
  else if e = 116 then some 9
  else none

/-- Body of a JSON string literal up to the closing quote, with the
unescaping done by `json.loads` (including surrogate-pair combination);
raw control characters are rejected as in strict-mode `json.loads`.
Fuelled by the input length to keep the recursion structural. -/
def parseJsonStr : Nat → List Nat → Option (List Nat × List Nat)
  | 0, _ => none
  | _ + 1, [] => none
  | fuel + 1, c :: rest =>
      if c = 34 then some ([], rest)
      else if c = 92 then
        match rest with
        | [] => none
        | e :: rest2 =>
          if e = 117 then
            match parseU4 rest2 with
            | none => none
            | some (u, rest3) =>
              if 55296 ≤ u ∧ u ≤ 56319 then
                match rest3 with
                | 92 :: 117 :: t =>
                  (match parseU4 t with
                   | none => none
                   | some (u2, rest5) =>
                     if 56320 ≤ u2 ∧ u2 ≤ 57343 then
                       (parseJsonStr fuel rest5).map
                         (fun pr => ((65536 + (u - 55296) * 1024 + (u2 - 56320)) :: pr.1, pr.2))
                     else
                       (parseJsonStr fuel rest5).map (fun pr => (u :: u2 :: pr.1, pr.2)))
                | _ => (parseJsonStr fuel rest3).map (fun pr => (u :: pr.1, pr.2))
              else
                (parseJsonStr fuel rest3).map (fun pr => (u :: pr.1, pr.2))
          else
            match escCode e with
            | some v => (parseJsonStr fuel rest2).map (fun pr => (v :: pr.1, pr.2))
            | none => none
      else if c < 32 then none
      else if 128 ≤ c then none
      else (parseJsonStr fuel rest).map (fun pr => (c :: pr.1, pr.2))

/-- Run of decimal digit characters at the head of the input. -/
def takeDigits : List Nat → List Nat × List Nat
  | [] => ([], [])
  | c :: rest =>
      if 48 ≤ c ∧ c ≤ 57 then
        let pr := takeDigits rest
        (c :: pr.1, pr.2)
      else ([], c :: rest)

/-- Numeric value of a run of decimal digit characters. -/
def digitsVal (l : List Nat) : Nat := l.foldl (fun acc d => acc * 10 + (d - 48)) 0

/-- JSON integer literal (optional minus sign, no leading zeros). -/
def parseJsonInt (l : List Nat) : Option (Int × List Nat) :=
  match l with
  | 45 :: rest =>
      let pr := takeDigits rest
      if pr.1 = [] ∨ (1 < pr.1.length ∧ pr.1.headD 0 = 48) then none
      else some (-(Int.ofNat (digitsVal pr.1)), pr.2)
  | _ =>
      let pr := takeDigits l
      if pr.1 = [] ∨ (1 < pr.1.length ∧ pr.1.headD 0 = 48) then none
      else some (Int.ofNat (digitsVal pr.1), pr.2)

/-- Literal byte sequence expected at the head of the input. -/
def expectBytes (pre l : List Nat) : Option (List Nat) :=
  if l.take pre.length = pre then some (l.drop pre.length) else none

/-- Embedding of `json.loads(payload_bytes)` together with the
`payload["ts"]`, `payload["nonce"]` and `payload['user']` accesses done by
the validator and dispatcher.  It recognizes exactly the canonical texts
produced by `serializePayload` (the shape every issued token has); other
byte sequences — reachable behind a valid signature only by the holder of
the secret — are conservatively mapped to `none`, modelling the uncaught
exception the Python code raises on non-JSON input, a non-dict value, or a
missing key, and leaving non-canonical-but-parsable JSON texts outside the
model. -/
def parsePayload (l : List Nat) : Option Payload := do
  let r1 ← expectBytes [123, 34, 117, 115, 101, 114, 34, 58, 34] l
  let pr1 ← parseJsonStr (r1.length + 1) r1
  let r3 ← expectBytes [44, 34, 116, 115, 34, 58] pr1.2
  let pr2 ← parseJsonInt r3
  let r5 ← expectBytes [44, 34, 110, 111, 110, 99, 101, 34, 58, 34] pr2.2
  let pr3 ← parseJsonStr (r5.length + 1) r5
  if pr3.2 = [125] then some ⟨pr1.1, pr2.1, pr3.1⟩ else none

/-- Constant `ALLOWED_SKEW = 60` seconds. -/
def ALLOWED_SKEW : Int := 60

/-- State of the sqlite `nonces` table: rows `(nonce, expires_at)` with
`nonce` as primary key. -/
abbrev NonceStore := List (List Nat × Int)

/-- Effect of `DELETE FROM nonces WHERE expires_at < now`. -/
def pruneExpired (st : NonceStore) (now : Int) : NonceStore :=
  st.filter (fun r => ¬ r.2 < now)

/-- Truth of `SELECT 1 FROM nonces WHERE nonce = ?` returning a row. -/
def nonceMember (st : NonceStore) (n : List Nat) : Bool :=
  st.any (fun r => r.1 = n)

/-- Exceptions that escape the security functions uncaught. -/
inductive PyErr where
  | attributeError
  | jsonError
deriving DecidableEq, Repr

/-- Decidable equality for `Except`, needed to evaluate return values of
the embedded functions on concrete inputs. -/
instance instDecEqExcept {e a : Type} [DecidableEq e] [DecidableEq a] :
    DecidableEq (Except e a) := fun x y =>
  match x, y with
  | .ok u, .ok v =>
      if h : u = v then isTrue (by rw [h]) else isFalse (fun hh => h (by cases hh; rfl))
  | .error u, .error v =>
      if h : u = v then isTrue (by rw [h]) else isFalse (fun hh => h (by cases hh; rfl))
  | .ok _, .error _ => isFalse (fun hh => Except.noConfusion hh)
  | .error _, .ok _ => isFalse (fun hh => Except.noConfusion hh)

/-- Exit points of `validate_admin_token`, one per distinct code branch
(the Python function logs a distinct debug message at each failure exit
but returns the same value `False`; `raised` marks the uncaught exception
out of `json.loads` and the subsequent subscript accesses). -/
inductive AdminOutcome where
  | ok (payload : Payload)
  | malformed
  | invalidSignature
  | expired
  | replayed
  | raised (e : PyErr)
deriving DecidableEq, Repr

/-- Embedding of `validate_admin_token(token, secret, db_path)` with the
branch taken made explicit.  The nonce table and the clock are explicit
parameters; the returned store is the durable table state after the call.
On the replay branch the code calls `conn.close()` without `commit()`, so
the implicit sqlite transaction holding the prune `DELETE` is rolled back
and the table is left as it was; only the success branch commits. -/
def validateAdminSteps (token secret : List Nat) (store : NonceStore) (now : Int) :
    AdminOutcome × NonceStore :=
  match b64decode token with
  | none => (.malformed, store)
  | some decoded =>
    match rsplitDot decoded with
    | none => (.malformed, store)
    | some (payloadBytes, signature) =>
      if hmacSha256 secret payloadBytes = signature then
        match parsePayload payloadBytes with
        | none => (.raised .jsonError, store)
        | some payload =>
          if ALLOWED_SKEW < |now - payload.ts| then (.expired, store)
          else
            if nonceMember (pruneExpired store now) payload.nonce then (.replayed, store)
            else (.ok payload, pruneExpired store now ++ [(payload.nonce, now + ALLOWED_SKEW)])
      else (.invalidSignature, store)

/-- Mapping from a branch to the value the Python function actually
returns: the payload dict on success, `False` (here `Option.none`) on
every classified failure, and a propagated exception on `raised`. -/
def adminReturn : AdminOutcome → Except PyErr (Option Payload)
  | .ok p => .ok (some p)
  | .raised e => .error e
  | _ => .ok none

/-- Return-level embedding of `validate_admin_token`. -/
def validate_admin_token (token secret : List Nat) (store : NonceStore) (now : Int) :
    Except PyErr (Option Payload) × NonceStore :=
  (adminReturn (validateAdminSteps token secret store now).1,
   (validateAdminSteps token secret store now).2)

/-- Embedding of `generate_admin_token(secret, user)`: the wall-clock
timestamp and the `uuid4().hex` nonce are explicit inputs.  The token is
`urlsafe_b64encode(payload_bytes + b"." + hmac_sha256(secret, payload_bytes))`. -/
def generate_admin_token (secret user : List Nat) (timestamp : Int) (nonce : List Nat) :
    List Nat :=
  b64encode (serializePayload ⟨user, timestamp, nonce⟩ ++ [46] ++
             hmacSha256 secret (serializePayload ⟨user, timestamp, nonce⟩))

/-- Embedding of the dispatcher `validate_token(credentials)`.  With
`HTTPBearer(auto_error=False)` an absent credential arrives as `None`, and
the unconditional `credentials.credentials` attribute access raises
`AttributeError` before any validation.  `validate_egi_token` performs
network I/O (JWKS fetch, remote user-info lookup), so it is modelled from
the spec as an abstract function `egi` of the credential; its result, of
arbitrary type, is returned as-is (`Sum.inr`).  On admin success the
Python function returns `{"auth": admin_user['user'], ...}`, modelled as
`Sum.inl` of the payload's user; the payload dict of a decoded token is
non-empty, so `if admin_user:` is exactly the success test. -/
def validate_token {α : Type} (credentials : Option (List Nat)) (secret : List Nat)
    (store : NonceStore) (now : Int) (egi : List Nat → α) :
    Except PyErr (Sum (List Nat) α) × NonceStore :=
  match credentials with
  | none => (.error .attributeError, store)
  | some cred =>
    match validateAdminSteps cred secret store now with
    | (.ok p, st2) => (.ok (.inl p.user), st2)
    | (.raised e, st2) => (.error e, st2)
    | (_, st2) => (.ok (.inr (egi cred)), st2)

/-- Bytes of an ASCII string (used only for concrete inputs). -/
def asciiBytes (s : String) : List Nat := s.toList.map Char.toNat

/-- Nonce value (a possible `uuid4().hex`) of the replay scenario. -/
def nonceC1 : List Nat := asciiBytes "00000000000000000000000000000001"

/-- Token issued with secret `"k"`, user `"admin"`, timestamp 100; its
HMAC tag contains no separator byte 46. -/
def tokenC1 : List Nat :=
  generate_admin_token (asciiBytes "k") (asciiBytes "admin") 100 nonceC1

/-- Nonce value of the round-trip scenario. -/
def nonceC2 : List Nat := asciiBytes "aabbccddeeff00112233445566778899"

/-- Token issued with secret `"s3cr3t"`, user `"ops"`, timestamp 109; the
HMAC tag of this payload contains the separator byte 46. -/
def tokenC2 : List Nat :=
  generate_admin_token (asciiBytes "s3cr3t") (asciiBytes "ops") 109 nonceC2

/-- Nonce value of the freshness-window scenario. -/
def nonceC5 : List Nat := asciiBytes "00000000000000000000000000000000"

/-- Payload bytes of the freshness-window scenario (user `"alice"`,
timestamp 1000). -/
def pbC5 : List Nat := serializePayload ⟨asciiBytes "alice", 1000, nonceC5⟩

/-- Token of the freshness-window scenario, signed with secret `"w5"`. -/
def tokenC5 : List Nat := b64encode (pbC5 ++ 46 :: hmacSha256 (asciiBytes "w5") pbC5)

/-- Nonce value of the signature-check scenario. -/
def nonceC6 : List Nat := asciiBytes "00000000000000000000000000000001"

/-- Payload bytes of the signature-check scenario (user `"bob"`,
timestamp 2000, signing secret `"w6"`). -/
def pbC6 : List Nat := serializePayload ⟨asciiBytes "bob", 2000, nonceC6⟩

/-- Nonce value of the error-classification scenario. -/
def nonceC7 : List Nat := asciiBytes "00000000000000000000000000000000"

/-- Payload bytes of the error-classification scenario (user `"carol"`,
timestamp 300). -/
def pbC7 : List Nat := serializePayload ⟨asciiBytes "carol", 300, nonceC7⟩

/-- Token issued with secret `"w7"`, user `"carol"`, timestamp 300. -/
def tokenC7 : List Nat :=
  generate_admin_token (asciiBytes "w7") (asciiBytes "carol") 300 nonceC7

/-- Token carrying the C7 payload with an all-zero signature segment. -/
def tokenC7bad : List Nat := b64encode (pbC7 ++ 46 :: List.replicate 32 0)

/-- Nonce value of the pruning scenario. -/
def nonceC10 : List Nat := asciiBytes "00000000000000000000000000000000"

/-- Token issued with secret `"w10"`, user `"dave"`, timestamp 50. -/
def tokenC10 : List Nat :=
  generate_admin_token (asciiBytes "w10") (asciiBytes "dave") 50 nonceC10

/-- Nonce table holding one expired row (`expires_at = 5`) and one live row
for the C10 token nonce. -/
def storeC10 : NonceStore := [(asciiBytes "stale", 5), (nonceC10, 100)]

/-- Every byte of a word decomposition is below 256. -/
theorem bytesOfWord_lt (x : Nat) : ∀ b ∈ bytesOfWord x, b < 256 := by
  intro b hb
  simp only [bytesOfWord, List.mem_cons, List.not_mem_nil, or_false] at hb
  rcases hb with hb | hb | hb | hb <;> omega

/-- A SHA-256 digest has 32 bytes. -/
theorem sha256_length (msg : List Nat) : (sha256 msg).length = 32 := by
  simp [sha256, bytesOfWord]

/-- Every byte of a SHA-256 digest is below 256. -/
theorem sha256_bytes_lt (msg : List Nat) : ∀ b ∈ sha256 msg, b < 256 := by
  intro b hb
  simp only [sha256, List.mem_flatten, List.mem_map] at hb
  obtain ⟨l, ⟨x, hx, hlx⟩, hbl⟩ := hb
  subst hlx
  exact bytesOfWord_lt x b hbl

/-- An HMAC-SHA256 tag has 32 bytes. -/
theorem hmacSha256_length (key msg : List Nat) : (hmacSha256 key msg).length = 32 := by
  simp only [hmacSha256]
  exact sha256_length _

/-- Every byte of an HMAC-SHA256 tag is below 256. -/
theorem hmacSha256_bytes_lt (key msg : List Nat) : ∀ b ∈ hmacSha256 key msg, b < 256 := by
  simp only [hmacSha256]
  exact sha256_bytes_lt _

/-- Encoding and decoding of one alphabet character are inverse, and no
alphabet character is the padding byte 61. -/
theorem b64CharVal : ∀ k, k < 64 → b64Val (b64Char k) = some k ∧ b64Char k ≠ 61 := by decide

/-- An alphabet character passes the decoder's retention filter. -/
theorem b64Char_keep (k : Nat) (hk : k < 64) :
    ((b64Val (b64Char k)).isSome || b64Char k = 61) = true := by
  simp [(b64CharVal k hk).1]

/-- Every character emitted by the encoder passes the decoder's retention
filter, provided the input consists of bytes. -/
theorem b64encode_keep : ∀ (x : List Nat), (∀ b ∈ x, b < 256) →
    ∀ c ∈ b64encode x, ((b64Val c).isSome || c = 61) = true
  | [] => by intro _ c hc; simp [b64encode] at hc
  | [b0] => by
      intro h c hc
      have hb0 : b0 < 256 := h b0 (by simp)
      simp only [b64encode, List.mem_cons, List.not_mem_nil, or_false] at hc
      rcases hc with hc | hc | hc | hc <;> subst hc <;>
        first
          | decide
          | exact b64Char_keep _ (by omega)
  | [b0, b1] => by
      intro h c hc
      have hb0 : b0 < 256 := h b0 (by simp)
      have hb1 : b1 < 256 := h b1 (by simp)
      simp only [b64encode, List.mem_cons, List.not_mem_nil, or_false] at hc
      rcases hc with hc | hc | hc | hc <;> subst hc <;>
        first
          | decide
          | exact b64Char_keep _ (by omega)
  | b0 :: b1 :: b2 :: b3 :: rest => by
      intro h c hc
      have hb0 : b0 < 256 := h b0 (by simp)
      have hb1 : b1 < 256 := h b1 (by simp)
      have hb2 : b2 < 256 := h b2 (by simp)
      simp only [b64encode, List.mem_cons] at hc
      rcases hc with hc | hc | hc | hc | hc
      · subst hc; exact b64Char_keep _ (by omega)
      · subst hc; exact b64Char_keep _ (by omega)
      · subst hc; exact b64Char_keep _ (by omega)
      · subst hc; exact b64Char_keep _ (by omega)
      · exact b64encode_keep (b3 :: rest) (fun b hb => h b (by simp at hb; simp [hb])) c hc
  | [b0, b1, b2] => by
      intro h c hc
      have hb0 : b0 < 256 := h b0 (by simp)
      have hb1 : b1 < 256 := h b1 (by simp)
      have hb2 : b2 < 256 := h b2 (by simp)
      simp only [b64encode, List.mem_cons, List.not_mem_nil, or_false] at hc
      rcases hc with hc | hc | hc | hc <;> subst hc <;>
        exact b64Char_keep _ (by omega)

/-- Group decoding inverts the encoder on byte input. -/
theorem b64DecodeGroups_encode : ∀ (x : List Nat), (∀ b ∈ x, b < 256) →
    b64DecodeGroups (b64encode x) = some x
  | [] => fun _ => rfl
  | [b0] => by
      intro h
      have hb0 : b0 < 256 := h b0 (by simp)
      have h1 := (b64CharVal (b0 / 4) (by omega)).1
      have h2 := (b64CharVal (b0 % 4 * 16) (by omega)).1
      simp [b64encode, b64DecodeGroups, h1, h2]
      omega
  | [b0, b1] => by
      intro h
      have hb0 : b0 < 256 := h b0 (by simp)
      have hb1 : b1 < 256 := h b1 (by simp)
      have h1 := (b64CharVal (b0 / 4) (by omega)).1
      have h2 := (b64CharVal (b0 % 4 * 16 + b1 / 16) (by omega)).1
      have h3 := (b64CharVal (b1 % 16 * 4) (by omega)).1
      have h3ne := (b64CharVal (b1 % 16 * 4) (by omega)).2
      simp [b64encode, b64DecodeGroups, h1, h2, h3, h3ne]
      omega
  | b0 :: b1 :: b2 :: b3 :: rest => by
      intro h
      have hb0 : b0 < 256 := h b0 (by simp)
      have hb1 : b1 < 256 := h b1 (by simp)
      have hb2 : b2 < 256 := h b2 (by simp)
      have ih := b64DecodeGroups_encode (b3 :: rest)
        (fun b hb => h b (by simp at hb; simp [hb]))
      have h1 := (b64CharVal (b0 / 4) (by omega)).1
      have h2 := (b64CharVal (b0 % 4 * 16 + b1 / 16) (by omega)).1
      have h3 := (b64CharVal (b1 % 16 * 4 + b2 / 64) (by omega)).1
      have h3ne := (b64CharVal (b1 % 16 * 4 + b2 / 64) (by omega)).2
      have h4 := (b64CharVal (b2 % 64) (by omega)).1
      have h4ne := (b64CharVal (b2 % 64) (by omega)).2
      simp [b64encode, b64DecodeGroups, h1, h2, h3, h4, h3ne, h4ne, ih]
      omega
  | [b0, b1, b2] => by
      intro h
      have hb0 : b0 < 256 := h b0 (by simp)
      have hb1 : b1 < 256 := h b1 (by simp)
      have hb2 : b2 < 256 := h b2 (by simp)
      have h1 := (b64CharVal (b0 / 4) (by omega)).1
      have h2 := (b64CharVal (b0 % 4 * 16 + b1 / 16) (by omega)).1
      have h3 := (b64CharVal (b1 % 16 * 4 + b2 / 64) (by omega)).1
      have h3ne := (b64CharVal (b1 % 16 * 4 + b2 / 64) (by omega)).2
      have h4 := (b64CharVal (b2 % 64) (by omega)).1
      have h4ne := (b64CharVal (b2 % 64) (by omega)).2
      simp [b64encode, b64DecodeGroups, h1, h2, h3, h4, h3ne, h4ne]
      omega

/-- Decoding inverts encoding on byte input (the round trip through
`urlsafe_b64encode` / `urlsafe_b64decode`). -/
theorem b64_roundtrip (x : List Nat) (h : ∀ b ∈ x, b < 256) :
    b64decode (b64encode x) = some x := by
  unfold b64decode b64Keep
  rw [List.filter_eq_self.mpr (b64encode_keep x h)]
  exact b64DecodeGroups_encode x h

/-- A dot-free byte string is not split by `rsplit(b".", 1)`. -/
theorem rsplitDot_none : ∀ (l : List Nat), 46 ∉ l → rsplitDot l = none
  | [] => fun _ => rfl
  | c :: rest => by
      intro h
      have hr := rsplitDot_none rest (fun hm => h (List.mem_cons_of_mem _ hm))
      have hc : c ≠ 46 := fun hc => h (by simp [hc])
      simp [rsplitDot, hr, hc]

/-- Splitting at the last dot of `p ++ b"." ++ s` recovers `p` and `s`
when `s` itself is dot-free. -/
theorem rsplitDot_append (p s : List Nat) (hs : 46 ∉ s) :
    rsplitDot (p ++ 46 :: s) = some (p, s) := by
  induction p with
  | nil => simp [rsplitDot, rsplitDot_none s hs]
  | cons c rest ih => simp [rsplitDot, ih]

set_option maxRecDepth 100000

set_option maxHeartbeats 2000000

/-- Helper: behaviour of `validate_admin_token` on a token of the wire
shape `b64encode(payloadBytes ++ b"." ++ signature)` with byte-valued
content and a dot-free signature: decoding and splitting succeed, and the
outcome is decided by the signature comparison, the payload parse, the
skew check and the nonce check, in the order of the source. -/
theorem validateAdminSteps_wire (pb s secret : List Nat) (store : NonceStore) (now : Int)
    (hpb : ∀ b ∈ pb, b < 256) (hsb : ∀ b ∈ s, b < 256) (hs : 46 ∉ s) :
    validateAdminSteps (b64encode (pb ++ 46 :: s)) secret store now =
      (if hmacSha256 secret pb = s then
        match parsePayload pb with
        | none => (.raised .jsonError, store)
        | some payload =>
          if ALLOWED_SKEW < |now - payload.ts| then (.expired, store)
          else if nonceMember (pruneExpired store now) payload.nonce then (.replayed, store)
          else (.ok payload, pruneExpired store now ++ [(payload.nonce, now + ALLOWED_SKEW)])
      else (.invalidSignature, store)) := by
  have hall : ∀ b ∈ pb ++ 46 :: s, b < 256 := by
    intro b hb
    rcases List.mem_append.mp hb with h | h
    · exact hpb b h
    · rcases List.mem_cons.mp h with h | h
      · omega
      · exact hsb b h
  unfold validateAdminSteps
  simp only [b64_roundtrip _ hall, rsplitDot_append pb s hs]

/-- Claim C1 (refuted by the code, `security.py` lines 95-112): the nonce of
`tokenC1` (issued at timestamp 100) validates successfully twice.  The first
validation at clock time 40 (within the ±60 s window) stores the nonce with
`expires_at = 40 + 60 = 100`; at clock time 101 the prune `DELETE` removes
that record while the token itself is still inside its freshness window
(101 ≤ 160), so the same nonce is accepted again. -/
theorem claim1_nonce_accepted_twice :
    (validateAdminSteps tokenC1 (asciiBytes "k") [] 40).1 =
      .ok ⟨asciiBytes "admin", 100, nonceC1⟩ ∧
    (validateAdminSteps tokenC1 (asciiBytes "k")
        (validateAdminSteps tokenC1 (asciiBytes "k") [] 40).2 101).1 =
      .ok ⟨asciiBytes "admin", 100, nonceC1⟩ := by
  constructor
  · decide
  · decide

/-- Claim C2 (refuted by the code, `security.py` lines 47-66 and 69-112):
the signature of `tokenC2` contains the separator byte 46, so the
`rsplit(b".", 1)` in the validator splits inside the signature and the
immediate validation of the freshly issued token — same clock time 109,
same secret, empty nonce store — fails with the signature-mismatch branch
and returns `False` instead of the payload. -/
theorem claim2_fresh_token_rejected :
    46 ∈ hmacSha256 (asciiBytes "s3cr3t")
        (serializePayload ⟨asciiBytes "ops", 109, nonceC2⟩) ∧
    (validateAdminSteps tokenC2 (asciiBytes "s3cr3t") [] 109).1 = .invalidSignature ∧
    validate_admin_token tokenC2 (asciiBytes "s3cr3t") [] 109 = (.ok none, []) := by
  refine ⟨by decide, by decide, by decide⟩

/-- Claim C4 (refuted by the code, `security.py` lines 21 and 131-136):
`HTTPBearer(auto_error=False)` hands an absent credential to
`validate_token` as `None`, and the unconditional `credentials.credentials`
attribute access raises `AttributeError` before any admin or federated
validation is attempted — an unhandled exception escapes the authenticate
boundary instead of a structured `Rejected(Missing)` result. -/
theorem claim4_missing_credential_raises (α : Type) (secret : List Nat)
    (store : NonceStore) (now : Int) (egi : List Nat → α) :
    validate_token none secret store now egi = (.error .attributeError, store) := rfl

/-- Claim C7, counterexample: a replay rejection (`tokenC7` whose nonce is
already stored) and a cryptographic rejection (`tokenC7bad` with an all-zero
signature) reach different internal branches yet produce identical return
values (`False`), so the returned result does not distinguish them. -/
theorem claim7_counterexample :
    (validateAdminSteps tokenC7 (asciiBytes "w7") [(nonceC7, 400)] 300).1 = .replayed ∧
    (validateAdminSteps tokenC7bad (asciiBytes "w7") [] 300).1 = .invalidSignature ∧
    (validate_admin_token tokenC7 (asciiBytes "w7") [(nonceC7, 400)] 300).1 =
      (validate_admin_token tokenC7bad (asciiBytes "w7") [] 300).1 := by
  refine ⟨by decide, by decide, by decide⟩

/-- Claim C7 as amended: `validate_admin_token` returns the same value
`False` for every classified failure — malformed input, signature mismatch,
expired timestamp and replay are distinguished in the code's control flow
(and debug log messages) but not in the returned result. -/
theorem claim7_false_on_every_failure (token secret : List Nat) (store : NonceStore)
    (now : Int) :
    (validate_admin_token token secret store now).1 = .ok none ↔
      ((validateAdminSteps token secret store now).1 = .malformed ∨
       (validateAdminSteps token secret store now).1 = .invalidSignature ∨
       (validateAdminSteps token secret store now).1 = .expired ∨
       (validateAdminSteps token secret store now).1 = .replayed) := by
  unfold validate_admin_token
  cases h : (validateAdminSteps token secret store now).1 <;> simp [adminReturn, h]

/-- Claim C5 (confirmed, `security.py` lines 26 and 89-93): a successful
validation implies `|now - ts| ≤ 60`, and a wire-shaped token with a correct
signature and parsable payload whose timestamp lies outside the window — in
particular exactly 61 seconds in the past or the future — is rejected at
the expiry branch with the store untouched. -/
theorem claim5_skew_window (token secret pb : List Nat) (store st2 : NonceStore)
    (now : Int) (p q : Payload) :
    (validateAdminSteps token secret store now = (.ok p, st2) →
      |now - p.ts| ≤ ALLOWED_SKEW) ∧
    ((∀ b ∈ pb, b < 256) → parsePayload pb = some q →
      46 ∉ hmacSha256 secret pb → ALLOWED_SKEW < |now - q.ts| →
      validateAdminSteps (b64encode (pb ++ 46 :: hmacSha256 secret pb)) secret store now =
        (.expired, store)) := by
  constructor
  · intro hv
    unfold validateAdminSteps at hv
    repeat' split at hv
    all_goals (injection hv with h1 h2)
    all_goals simp_all
  · intro hpb hq hdot hskew
    rw [validateAdminSteps_wire pb (hmacSha256 secret pb) secret store now hpb
        (hmacSha256_bytes_lt secret pb) hdot]
    simp [hq, hskew]

/-- Check of C5 at concrete inputs: `tokenC5` (timestamp 1000) validates at
clock time 1000 within the window, and at clock time 1061 (61 seconds late)
it is rejected at the expiry branch. -/
theorem claim5_skew_window_check :
    |(1000 : Int) - 1000| ≤ ALLOWED_SKEW ∧
    validateAdminSteps tokenC5 (asciiBytes "w5") [] 1061 = (.expired, []) :=
  ⟨(claim5_skew_window tokenC5 (asciiBytes "w5") pbC5 []
      ((validateAdminSteps tokenC5 (asciiBytes "w5") [] 1000).2) 1000
      ⟨asciiBytes "alice", 1000, nonceC5⟩ ⟨asciiBytes "alice", 1000, nonceC5⟩).1
      (by decide),
   (claim5_skew_window tokenC5 (asciiBytes "w5") pbC5 [] [] 1061
      ⟨asciiBytes "alice", 1000, nonceC5⟩ ⟨asciiBytes "alice", 1000, nonceC5⟩).2
      (by decide) (by decide) (by decide) (by decide)⟩

/-- Claim C6 (confirmed, `security.py` lines 78-86): validation succeeds only
when the recomputed HMAC of the payload bytes equals the token's signature
segment.  A wire-shaped token validated with a secret whose HMAC differs from
the carried signature is rejected as a signature mismatch regardless of the
payload, and so is any single-byte modification of a correctly signed
token's signature segment. -/
theorem claim6_signature_verification (pb s secret secret2 : List Nat)
    (store : NonceStore) (now : Int) (i c : Nat) :
    ((∀ b ∈ pb, b < 256) → (∀ b ∈ s, b < 256) → 46 ∉ s →
      hmacSha256 secret2 pb ≠ s →
      (validateAdminSteps (b64encode (pb ++ 46 :: s)) secret2 store now).1 =
        .invalidSignature) ∧
    ((∀ b ∈ pb, b < 256) → hmacSha256 secret pb = s → 46 ∉ s →
      i < s.length → c < 256 → c ≠ s.getD i 0 →
      (validateAdminSteps (b64encode (pb ++ 46 :: s.set i c)) secret store now).1 =
        .invalidSignature) := by
  constructor
  · intro hpb hsb hs hne
    rw [validateAdminSteps_wire pb s secret2 store now hpb hsb hs]
    simp [hne]
  · intro hpb hsig hs hi hc hcne
    have hsb : ∀ b ∈ s, b < 256 := by
      intro b hb
      exact hmacSha256_bytes_lt secret pb b (hsig ▸ hb)
    have hslen : s.length = 32 := by rw [← hsig, hmacSha256_length]
    by_cases h46 : c = 46
    · subst h46
      have hset : s.set i 46 = s.take i ++ 46 :: s.drop (i + 1) :=
        List.set_eq_take_cons_drop 46 hi
      have hdrop : 46 ∉ s.drop (i + 1) := fun hm => hs (List.mem_of_mem_drop hm)
      have hpb2 : ∀ b ∈ pb ++ 46 :: s.take i, b < 256 := by
        intro b hb
        rcases List.mem_append.mp hb with h | h
        · exact hpb b h
        · rcases List.mem_cons.mp h with h | h
          · omega
          · exact hsb b (List.mem_of_mem_take h)
      have hsb2 : ∀ b ∈ s.drop (i + 1), b < 256 := by
        intro b hb
        exact hsb b (List.mem_of_mem_drop hb)
      have harr : pb ++ 46 :: s.set i 46 = (pb ++ 46 :: s.take i) ++ 46 :: s.drop (i + 1) := by
        rw [hset]
        simp
      rw [harr, validateAdminSteps_wire _ _ secret store now hpb2 hsb2 hdrop]
      have hlen : hmacSha256 secret (pb ++ 46 :: s.take i) ≠ s.drop (i + 1) := by
        intro he
        have hl := congrArg List.length he
        rw [hmacSha256_length, List.length_drop] at hl
        omega
      simp [hlen]
    · have hs2 : 46 ∉ s.set i c := by
        intro hm
        rcases List.mem_or_eq_of_mem_set hm with hm | hm
        · exact hs hm
        · exact h46 hm.symm
      have hsb2 : ∀ b ∈ s.set i c, b < 256 := by
        intro b hb
        rcases List.mem_or_eq_of_mem_set hb with hb | hb
        · exact hsb b hb
        · omega
      rw [validateAdminSteps_wire pb (s.set i c) secret store now hpb hsb2 hs2]
      have hne : hmacSha256 secret pb ≠ s.set i c := by
        intro he
        have h1 : s = s.set i c := hsig.symm.trans he
        have h2 : s.getD i 0 = c := by
          rw [h1, List.getD_eq_getElem _ _ (by rw [List.length_set]; exact hi)]
          exact List.getElem_set_self _
        exact hcne h2.symm
      simp [hne]

/-- Check of C6 at concrete inputs: the C6 token verified with the wrong
secret `"x6"` hits the signature-mismatch branch, and so does the C6 token
with byte 0 of its signature segment overwritten by 0. -/
theorem claim6_signature_verification_check :
    (validateAdminSteps (b64encode (pbC6 ++ 46 :: hmacSha256 (asciiBytes "w6") pbC6))
        (asciiBytes "x6") [] 2000).1 = .invalidSignature ∧
    (validateAdminSteps
        (b64encode (pbC6 ++ 46 :: (hmacSha256 (asciiBytes "w6") pbC6).set 0 0))
        (asciiBytes "w6") [] 2000).1 = .invalidSignature :=
  ⟨(claim6_signature_verification pbC6 (hmacSha256 (asciiBytes "w6") pbC6) (asciiBytes "w6")
      (asciiBytes "x6") [] 2000 0 0).1 (by decide) (by decide) (by decide) (by decide),
   (claim6_signature_verification pbC6 (hmacSha256 (asciiBytes "w6") pbC6) (asciiBytes "w6")
      (asciiBytes "x6") [] 2000 0 0).2 (by decide) rfl (by decide) (by decide) (by decide)
      (by decide)⟩

/-- Claim C8 (confirmed, `security.py` lines 131-136): whenever admin
validation of a present credential ends in one of the four classified
failures, the dispatcher returns exactly the federated validator's result
on that same credential, and that result is final. -/
theorem claim8_fallback_to_federated (α : Type) (cred secret : List Nat)
    (store : NonceStore) (now : Int) (egi : List Nat → α)
    (h : (validateAdminSteps cred secret store now).1 = .malformed ∨
         (validateAdminSteps cred secret store now).1 = .invalidSignature ∨
         (validateAdminSteps cred secret store now).1 = .expired ∨
         (validateAdminSteps cred secret store now).1 = .replayed) :
    validate_token (some cred) secret store now egi =
      (.ok (.inr (egi cred)), (validateAdminSteps cred secret store now).2) := by
  unfold validate_token
  rcases hv : validateAdminSteps cred secret store now with ⟨o, st2⟩
  rw [hv] at h
  cases o <;> simp_all

/-- Check of C8 at a concrete input: the credential `"!!"` is not decodable
base64, admin validation is the malformed failure, and the dispatcher
returns the federated validator's result on it. -/
theorem claim8_fallback_to_federated_check :
    validate_token (some (asciiBytes "!!")) (asciiBytes "k") [] 0 (fun _ => (0 : Nat)) =
      (.ok (.inr 0), []) :=
  (claim8_fallback_to_federated Nat (asciiBytes "!!") (asciiBytes "k") [] 0
      (fun _ => (0 : Nat)) (Or.inl (by decide))).trans (by decide)

/-- Claim C9 (confirmed, `security.py` lines 69-93): a validation that fails
at decoding, signature comparison or the freshness check returns before the
sqlite connection is opened, so the nonce table after the call equals the
table before it. -/
theorem claim9_early_failure_keeps_store (token secret : List Nat) (store : NonceStore)
    (now : Int) (o : AdminOutcome) (st2 : NonceStore)
    (hv : validateAdminSteps token secret store now = (o, st2))
    (h : o = .malformed ∨ o = .invalidSignature ∨ o = .expired) :
    st2 = store := by
  unfold validateAdminSteps at hv
  repeat' split at hv
  all_goals (injection hv with h1 h2; subst h1; subst h2; simp_all)

/-- Check of C9 at a concrete input: the malformed credential `"!!"` leaves
a non-empty nonce table exactly as it was. -/
theorem claim9_early_failure_keeps_store_check :
    (validateAdminSteps (asciiBytes "!!") (asciiBytes "k") [(asciiBytes "z", 50)] 0).2 =
      [(asciiBytes "z", 50)] :=
  claim9_early_failure_keeps_store (asciiBytes "!!") (asciiBytes "k")
    [(asciiBytes "z", 50)] 0 .malformed
    ((validateAdminSteps (asciiBytes "!!") (asciiBytes "k") [(asciiBytes "z", 50)] 0).2)
    (by decide) (Or.inl rfl)

/-- Claim C10 as amended (`security.py` lines 96-111): the prune `DELETE`
runs inside the call's implicit sqlite transaction before the uniqueness
check, so the check sees the pruned table, but the pruned state is committed
only by the success branch: a successful validation leaves the pruned table
plus the new nonce row, while a replay rejection closes the connection
without commit and leaves the table unchanged. -/
theorem claim10_prune_commit (token secret : List Nat) (store : NonceStore) (now : Int)
    (p : Payload) (st2 : NonceStore) :
    (validateAdminSteps token secret store now = (.ok p, st2) →
      st2 = pruneExpired store now ++ [(p.nonce, now + ALLOWED_SKEW)]) ∧
    (validateAdminSteps token secret store now = (.replayed, st2) → st2 = store) := by
  constructor <;>
    (intro hv
     unfold validateAdminSteps at hv
     repeat' split at hv
     all_goals (injection hv with h1 h2)
     all_goals simp_all)

/-- Claim C10, counterexample: at clock time 50 the table `storeC10` holds
the expired row `("stale", 5)`; validating `tokenC10` (whose nonce is also
stored, so the call returns the replay rejection) leaves the table equal to
`storeC10`, expired row included — the claimed unconditional deletion of
expired rows does not survive the replay path's rollback. -/
theorem claim10_counterexample :
    (validateAdminSteps tokenC10 (asciiBytes "w10") storeC10 50).1 = .replayed ∧
    (validateAdminSteps tokenC10 (asciiBytes "w10") storeC10 50).2 = storeC10 ∧
    (asciiBytes "stale", (5 : Int)) ∈
      (validateAdminSteps tokenC10 (asciiBytes "w10") storeC10 50).2 ∧
    (5 : Int) < 50 := by
  refine ⟨by decide, by decide, by decide, by decide⟩

/-- Check of C10 at a concrete input: a successful validation of `tokenC10`
over a table holding only the expired row `("old", 5)` commits the pruned
table plus the new nonce row. -/
theorem claim10_prune_commit_check :
    (validateAdminSteps tokenC10 (asciiBytes "w10") [(asciiBytes "old", 5)] 50).2 =
      pruneExpired [(asciiBytes "old", 5)] 50 ++ [(nonceC10, 50 + ALLOWED_SKEW)] :=
  (claim10_prune_commit tokenC10 (asciiBytes "w10") [(asciiBytes "old", 5)] 50
      ⟨asciiBytes "dave", 50, nonceC10⟩
      ((validateAdminSteps tokenC10 (asciiBytes "w10") [(asciiBytes "old", 5)] 50).2)).1
    (by decide)

end ToolRegistry
